import Mathlib

/-!
Shallow embedding of the contact-book core of this repository
(ab_classes.py) together with the search command of the dispatcher
(bot.py), and theorems checking the specification's claims against it.

Python strings are modelled as Lean `String` (operated on through their
character lists); Python exceptions as an explicit error type returned
through `Except`; the insertion-ordered `dict` underlying `AddressBook`
as an association list.
-/

namespace HW12

/-- Exceptions raised by the modelled code, tagged by exception class:
`valueError` for Python's builtin `ValueError`, `birthdayError` for the
domain exception `BirthdayError` declared in ab_classes.py. -/
inductive PyErr where
  | valueError (msg : String)
  | birthdayError (msg : String)
deriving DecidableEq, Repr

/-! ## Phone (ab_classes.py lines 38-61) -/

/-- Embedding of `re.match(r"^\d{7,15}$", s)` from `Phone._validate_phone`
(lines 44-46), for ASCII strings: `\d` matches an ASCII digit (Python's
`\d` also matches other Unicode decimal digits; non-ASCII input is outside
this model), and `$` matches at the end of the string or just before a
newline that ends the string. The quantifier must consume between 7 and 15
of the leading digits and leave `$` at an admissible position, which
happens exactly when the count of leading digits is within 7..15 and the
remainder is empty or a single final newline. -/
def pyMatchPhone (cs : List Char) : Bool :=
  let ds := cs.takeWhile Char.isDigit
  let rest := cs.dropWhile Char.isDigit
  decide (7 ≤ ds.length) && decide (ds.length ≤ 15) &&
    (rest.isEmpty || rest == ['\n'])

/-- `Phone`. `value` is the stored digit string. `oid` models Python
object identity: `Phone` defines no `__eq__`, so `==` (and hence the list
membership test in `Record.add_phone`) falls back to object identity, and
distinct constructor calls yield distinct objects. `__init__` sets
`_value = None` and immediately overwrites it through the setter whenever
a value argument is given; the repository always constructs `Phone` with
a value, so the transient `None` state is not modelled. -/
structure Phone where
  oid : Nat
  value : String
deriving DecidableEq, Repr

/-- The `Phone.value` setter (lines 52-55): `_validate_phone` raises
`ValueError("Invalid phone number format")` unless the pattern matches;
on success the raw string is stored unchanged (exceptions abort the
assignment, leaving the object as it was). -/
def phoneSetValue (p : Phone) (raw : String) : Except PyErr Phone :=
  if pyMatchPhone raw.data then .ok { p with value := raw }
  else .error (.valueError "Invalid phone number format")

/-- `Phone.__init__` with a non-None value argument: delegates to the
`value` setter; `oid` is the identity of the freshly created object. -/
def mkPhone (oid : Nat) (raw : String) : Except PyErr Phone :=
  phoneSetValue { oid := oid, value := "" } raw

/-- `Phone.__str__` (and `__repr__`): the stored value. -/
def phoneStr (p : Phone) : String :=
  p.value

/-! ## Dates (Python `datetime.date`) -/

/-- A Python `datetime.date` value: a (year, month, day) triple; the
constructor enforces validity (see `validDate`). -/
structure PyDate where
  year : Nat
  month : Nat
  day : Nat
deriving DecidableEq, Repr

/-- Leap-year rule of the proleptic Gregorian calendar used by
`datetime`. -/
def isLeap (y : Nat) : Bool :=
  y % 4 == 0 && (y % 100 != 0 || y % 400 == 0)

/-- Number of days in month `m` of year `y` (months 1..12). -/
def daysInMonth (y m : Nat) : Nat :=
  match m with
  | 1 => 31
  | 2 => if isLeap y then 29 else 28
  | 3 => 31
  | 4 => 30
  | 5 => 31
  | 6 => 30
  | 7 => 31
  | 8 => 31
  | 9 => 30
  | 10 => 31
  | 11 => 30
  | 12 => 31
  | _ => 0

/-- Cumulative days before month `m` in a non-leap year (CPython's
`_DAYS_BEFORE_MONTH` table). -/
def daysBeforeMonthTable (m : Nat) : Nat :=
  match m with
  | 1 => 0
  | 2 => 31
  | 3 => 59
  | 4 => 90
  | 5 => 120
  | 6 => 151
  | 7 => 181
  | 8 => 212
  | 9 => 243
  | 10 => 273
  | 11 => 304
  | 12 => 334
  | _ => 0

/-- Days in year `y` strictly before month `m` (CPython's
`_days_before_month`: the table plus one for leap years after
February). -/
def daysBeforeMonth (y m : Nat) : Nat :=
  daysBeforeMonthTable m + (if 2 < m ∧ isLeap y = true then 1 else 0)

/-- Days before January 1st of year `y` counting from the calendar epoch
(CPython's `_days_before_year`). -/
def daysBeforeYear (y : Nat) : Nat :=
  365 * (y - 1) + (y - 1) / 4 - (y - 1) / 100 + (y - 1) / 400

/-- `date.toordinal()`: day number of the date, counting 01-01-0001 as
day 1. The difference of two ordinals is the `days` of the `timedelta`
obtained by subtracting the dates. -/
def toOrdinal (dt : PyDate) : Nat :=
  daysBeforeYear dt.year + daysBeforeMonth dt.year dt.month + dt.day

/-- Validity check of the `datetime.date` constructor: year within
Python's `MINYEAR..MAXYEAR` (1..9999), month 1..12, day within the
month. -/
def validDate (y m d : Nat) : Prop :=
  1 ≤ y ∧ y ≤ 9999 ∧ 1 ≤ m ∧ m ≤ 12 ∧ 1 ≤ d ∧ d ≤ daysInMonth y m

instance (y m d : Nat) : Decidable (validDate y m d) := by
  unfold validDate
  infer_instance

/-- The `date(year, month, day)` constructor: raises `ValueError` on an
out-of-range component (CPython's message text depends on which component
is out of range; the claims below depend only on the exception class, so
a single representative message is used). -/
def mkDate (y m d : Nat) : Except PyErr PyDate :=
  if validDate y m d then .ok { year := y, month := m, day := d }
  else .error (.valueError "date component out of range")

/-- Python `date` comparison `<`: lexicographic on (year, month, day). -/
def dateLt (a b : PyDate) : Bool :=
  a.year < b.year ||
    (a.year == b.year &&
      (a.month < b.month || (a.month == b.month && a.day < b.day)))

/-! ## Birthday (ab_classes.py lines 64-97) -/

/-- Digit characters of the decimal representation of `n` zero-padded to
width 2, as printed by `strftime` with `%d` and `%m` (`n < 100`). -/
def pad2 (n : Nat) : List Char :=
  [Char.ofNat (48 + n / 10), Char.ofNat (48 + n % 10)]

/-- Digit characters of the decimal representation of `n` zero-padded to
width 4, as printed by `strftime` with `%Y` for years up to 9999
(CPython's documented `%Y` output, zero-padded to four digits). -/
def pad4 (n : Nat) : List Char :=
  [Char.ofNat (48 + n / 1000), Char.ofNat (48 + n / 100 % 10),
    Char.ofNat (48 + n / 10 % 10), Char.ofNat (48 + n % 10)]

/-- Numeric value of a string of decimal digit characters. -/
def digitsToNat (cs : List Char) : Nat :=
  cs.foldl (fun a c => a * 10 + (c.toNat - 48)) 0

/-- Split a character list at every hyphen (Python-style `split("-")`):
the pattern `"%d-%m-%Y"` makes `strptime` consume digits up to each
literal hyphen, so splitting at hyphens recovers exactly the candidate
day/month/year tokens (no token may itself hold a hyphen, being all
digits). -/
def splitHyphens (cs : List Char) : List (List Char) :=
  match cs with
  | [] => [[]]
  | c :: rest =>
    if c = '-' then [] :: splitHyphens rest
    else (c :: (splitHyphens rest).headD []) :: (splitHyphens rest).tail

/-- Embedding of `datetime.strptime(s, "%d-%m-%Y")` returning the parsed
(day, month, year), or `none` for the `ValueError` it raises on
malformed input. CPython's `_strptime` compiles `%d` to the pattern
`3[01]|[12]\d|0[1-9]|[1-9]` (a 1-2 digit number 1..31), `%m` to
`1[0-2]|0[1-9]|[1-9]` (a 1-2 digit number 1..12) and `%Y` to `\d\d\d\d`
(exactly four digits); any unconverted leading/trailing data is an error,
and the assembled `datetime(year, month, day)` re-checks the day against
the month length and the year against `MINYEAR` (1). -/
def pyStrptimeDMY (cs : List Char) : Option (Nat × Nat × Nat) :=
  match splitHyphens cs with
  | [dt, mt, yt] =>
    let d := digitsToNat dt
    let m := digitsToNat mt
    let y := digitsToNat yt
    if dt.all Char.isDigit && (dt.length == 1 || dt.length == 2) &&
        decide (1 ≤ d) && decide (d ≤ 31) &&
        mt.all Char.isDigit && (mt.length == 1 || mt.length == 2) &&
        decide (1 ≤ m) && decide (m ≤ 12) &&
        yt.all Char.isDigit && yt.length == 4 &&
        decide (1 ≤ y) && decide (d ≤ daysInMonth y m) then
      some (d, m, y)
    else
      none
  | _ => none

/-- `Birthday` (lines 64-97): holds the `datetime.date` parsed from the
input string. (`days_to_birthday` guards `if not self._value`, but the
constructor and the setter always store a parsed date, so the guard is
unreachable and the stored value is modelled as a date, not an optional
date.) -/
structure Birthday where
  value : PyDate
deriving DecidableEq, Repr

/-- `Birthday.__init__`: `_validate_birthday` turns the `ValueError` of a
failed `strptime` into `BirthdayError("Invalid birthday format. Use
DD-MM-YYYY format.")`; on success the parsed date is stored. -/
def mkBirthday (s : String) : Except PyErr Birthday :=
  match pyStrptimeDMY s.data with
  | some (d, m, y) => .ok { value := { year := y, month := m, day := d } }
  | none => .error (.birthdayError "Invalid birthday format. Use DD-MM-YYYY format.")

/-- The DD-MM-YYYY rendering of a (day, month, year) triple: two-digit
zero-padded day and month, four-digit zero-padded year, separated by
hyphens. -/
def dmyString (d m y : Nat) : String :=
  String.mk (pad2 d ++ ('-' :: (pad2 m ++ ('-' :: pad4 y))))

/-- `Birthday.__str__`: `self._value.strftime("%d-%m-%Y")` (the stored
value is never None, see `Birthday`). -/
def birthdayStr (b : Birthday) : String :=
  dmyString b.value.day b.value.month b.value.year

/-- `Birthday.days_to_birthday` (lines 84-94), with the current date
passed explicitly in place of `datetime.now().date()`:
`given_date = date(current_date.year, month, day)` (which may raise
`ValueError`), replaced by the same date in `current_date.year + 1` when
it is before `current_date` (which may again raise `ValueError`); the
result is `(given_date - current_date).days`, the ordinal difference. -/
def daysToBirthday (b : Birthday) (current : PyDate) : Except PyErr Int :=
  match mkDate current.year b.value.month b.value.day with
  | .error e => .error e
  | .ok given =>
    if dateLt given current then
      match mkDate (current.year + 1) b.value.month b.value.day with
      | .error e => .error e
      | .ok given2 => .ok ((toOrdinal given2 : Int) - (toOrdinal current : Int))
    else
      .ok ((toOrdinal given : Int) - (toOrdinal current : Int))

/-! ## Record (ab_classes.py lines 100-138) -/

/-- `Record`: a name (a `Name` field rendering as its string value, kept
here as the string), the list of phones, and an optional birthday. -/
structure Record where
  name : String
  phones : List Phone
  birthday : Option Birthday
deriving DecidableEq, Repr

/-- `Record.add_phone` (lines 108-113): `if phone not in self.phones`
uses `==` on `Phone` objects, which `Phone` does not override, so the
membership test compares object identity (`oid`); a missing phone is
appended and reported added, otherwise the record is unchanged and the
phone reported already present. -/
def addPhone (r : Record) (p : Phone) : Record × String :=
  if (r.phones.any fun q => q.oid == p.oid) = false then
    ({ r with phones := r.phones ++ [p] },
      "Phone " ++ phoneStr p ++ " added to contact " ++ r.name)
  else
    (r, "Phone " ++ phoneStr p ++ " already present in contact " ++ r.name)

/-- The loop of `Record.change_phone` (lines 115-121): find the first
index whose phone's `value` equals `old_phone.value` and overwrite that
slot with the new phone; `none` when no value matches. -/
def replaceFirstByValue (phones : List Phone) (oldValue : String) (np : Phone) :
    Option (List Phone) :=
  match phones with
  | [] => none
  | q :: qs =>
    if oldValue = q.value then some (np :: qs)
    else (replaceFirstByValue qs oldValue np).map fun t => q :: t

/-- `Record.change_phone`: replaces the first phone matching by value and
reports the change, or leaves the record unchanged and reports the old
phone not present. No exception is raised on either path. -/
def changePhone (r : Record) (oldPhone newPhone : Phone) : Record × String :=
  match replaceFirstByValue r.phones oldPhone.value newPhone with
  | some ps =>
    ({ r with phones := ps },
      "Old phone " ++ phoneStr oldPhone ++ " changed to " ++ phoneStr newPhone)
  | none => (r, phoneStr oldPhone ++ " not present in phonebook")

/-- `Record.__str__` (lines 126-131): name, bracketed comma-joined
phones, and a birthday clause when a birthday is set. -/
def recordStr (r : Record) : String :=
  let contact := r.name ++ ": [" ++ String.intercalate ", " (r.phones.map phoneStr) ++ "]"
  match r.birthday with
  | some b => contact ++ " (Birthday: " ++ birthdayStr b ++ ")"
  | none => contact

/-! ## AddressBook (ab_classes.py lines 141-203) -/

/-- The `UserDict` data of `AddressBook`: a name-keyed insertion-ordered
mapping, modelled as an association list with (as Python dicts enforce)
at most one entry per key. -/
def BookData : Type := List (String × Record)

/-- Python `name in self.data`. -/
def hasKey (d : List (String × Record)) (name : String) : Bool :=
  d.any fun kv => kv.1 == name

/-- Python `self.data.get(name)` / `address_book.get(str(name))`:
the value stored under the key, `None` when absent. -/
def getRecord (d : List (String × Record)) (name : String) : Option Record :=
  match d with
  | [] => none
  | kv :: rest => if kv.1 == name then some kv.2 else getRecord rest name

/-- Python `del self.data[name]`: removes the entry under the key. Since
dict keys are unique, removing the single entry equals removing every
entry with that key. -/
def delKey (d : List (String × Record)) (name : String) : List (String × Record) :=
  d.filter fun kv => kv.1 != name

/-- The effective `AddressBook.del_record` (lines 182-185; it shadows the
earlier definition of the same name at lines 150-154, Python keeping only
the last one bound in the class body): deletes the entry when the name is
present, and returns the message "Contact {name} does not exist in the
phonebook" on every call, present or not. -/
def delRecord (d : List (String × Record)) (name : String) :
    List (String × Record) × String :=
  (if hasKey d name then delKey d name else d,
    "Contact " ++ name ++ " does not exist in the phonebook")

/-- `AddressBook.values` (lines 187-188): the records in the dict's
insertion iteration order. -/
def bookValues (d : List (String × Record)) : List Record :=
  d.map fun kv => kv.2

/-- The loop body of `AddressBook.iterator` (lines 190-197), with the
records and the page size abstracted: starting from `offset`
(`current_page` in the source, despite its name an offset in records),
while `offset < total_records` yield
`islice(values(), offset, offset + page_size)` — the `page_size` records
of the iteration order starting at `offset` — and advance by
`page_size`. `fuel` bounds the number of loop iterations; `fuel = total
records` is enough for any positive page size (with `page_size = 0` the
Python loop never terminates, and the spec's page-count formula is
undefined, so the claims below assume a positive page size). -/
def iteratorAux (recs : List Record) (pageSize offset fuel : Nat) :
    List (List Record) :=
  match fuel with
  | 0 => []
  | fuel' + 1 =>
    if offset < recs.length then
      ((recs.drop offset).take pageSize) ::
        iteratorAux recs pageSize (offset + pageSize) fuel'
    else []

/-- `AddressBook.iterator`: the sequence of pages produced by one full
run of the generator over the current data. -/
def iteratorPages (d : List (String × Record)) (pageSize : Nat) :
    List (List Record) :=
  iteratorAux (bookValues d) pageSize 0 (bookValues d).length

/-! ## Search (bot.py lines 102-114) -/

/-- Whether `needle` occurs as a contiguous substring of `hay`:
Python's `needle in hay` on strings (case-sensitive). -/
def strContainsSub (hay needle : List Char) : Bool :=
  needle.isPrefixOf hay ||
    match hay with
    | [] => false
    | _ :: rest => strContainsSub rest needle

/-- The accumulation loop of `find_command`: walk the records in book
order (iterating an `AddressBook` yields `self.data.values()`) and keep
`str(record)` of every record whose rendering contains the search string. -/
def findLoop (recs : List Record) (search : String) : List String :=
  match recs with
  | [] => []
  | r :: rest =>
    if strContainsSub (recordStr r).data search.data then
      recordStr r :: findLoop rest search
    else findLoop rest search

/-- `find_command` with the global book and the single search argument
made explicit: rejects searches shorter than 3 characters, otherwise
joins the matching renderings with newlines, or reports no matches. -/
def findCommand (d : List (String × Record)) (search : String) : String :=
  if search.length < 3 then "Invalid arguments. Usage: find <minimum 3 symbols>"
  else
    match findLoop (bookValues d) search with
    | [] => "No matches found for " ++ search
    | res => String.intercalate "\n" res

/-! ## Helper lemmas -/

theorem takeWhile_of_all {α : Type} {p : α → Bool} {l : List α}
    (h : l.all p = true) : l.takeWhile p = l := by
  induction l with
  | nil => rfl
  | cons a t ih =>
    simp only [List.all_cons, Bool.and_eq_true] at h
    simp [List.takeWhile_cons, h.1, ih h.2]

theorem dropWhile_of_all {α : Type} {p : α → Bool} {l : List α}
    (h : l.all p = true) : l.dropWhile p = [] := by
  induction l with
  | nil => rfl
  | cons a t ih =>
    simp only [List.all_cons, Bool.and_eq_true] at h
    simp [List.dropWhile_cons, h.1, ih h.2]

theorem all_takeWhile {α : Type} (p : α → Bool) (l : List α) :
    (l.takeWhile p).all p = true := by
  induction l with
  | nil => rfl
  | cons a t ih =>
    cases h : p a with
    | true => simp [List.takeWhile_cons, h, ih]
    | false => simp [List.takeWhile_cons, h]

/-- C8: for every string of 7 to 15 ASCII digits, constructing a
`Phone` from it succeeds and `__str__` returns exactly the input string. -/
theorem phone_digits_roundtrip (oid : Nat) (s : String)
    (hdig : s.data.all Char.isDigit = true)
    (h7 : 7 ≤ s.length) (h15 : s.length ≤ 15) :
    mkPhone oid s = .ok { oid := oid, value := s } ∧
    phoneStr { oid := oid, value := s } = s := by
  have hmatch : pyMatchPhone s.data = true := by
    unfold pyMatchPhone
    rw [takeWhile_of_all hdig, dropWhile_of_all hdig]
    have hlen : s.data.length = s.length := rfl
    simp [hlen, h7, h15]
  constructor
  · unfold mkPhone phoneSetValue
    rw [hmatch]
    rfl
  · rfl

/-- C8 witness at a concrete digit string. -/
theorem phone_digits_roundtrip_witness :
    "5551234567".data.all Char.isDigit = true ∧
    mkPhone 0 "5551234567" = .ok { oid := 0, value := "5551234567" } :=
  ⟨by decide,
    (phone_digits_roundtrip 0 "5551234567" (by decide) (by decide) (by decide)).1⟩

/-- C2 counterexample: the string "1234567\n" contains a character that
is not an ASCII digit (so by the claim it must be rejected), yet `Phone`
construction accepts it and stores it verbatim, because Python's `$`
also matches just before a string-final newline. -/
theorem phone_newline_accepted :
    "1234567\n".data.all Char.isDigit = false ∧
    mkPhone 0 "1234567\n" = .ok { oid := 0, value := "1234567\n" } := by
  constructor
  · decide
  · rfl

/-- A block of 7 to 15 ASCII digits. -/
def isDigitBlock (cs : List Char) : Bool :=
  cs.all Char.isDigit && decide (7 ≤ cs.length) && decide (cs.length ≤ 15)

/-- The amended acceptance condition, stated from the corrected claim's
words: the whole string is 7-15 ASCII digits, or it is 7-15 ASCII digits
followed by one final newline character. -/
def specPhoneAccepted (s : String) : Bool :=
  isDigitBlock s.data ||
    (s.data.getLast? == some '\n' && isDigitBlock s.data.dropLast)

/-- C2 amended: for every ASCII string not of the accepted form (7-15
digits with an optional single trailing newline), construction and
assignment through the `value` setter both fail with
`ValueError("Invalid phone number format")`, so no such string is ever
stored. (The ASCII hypothesis marks the modelled domain: Python's `\d`
additionally matches non-ASCII Unicode decimal digits.) -/
theorem phone_invalid_rejected (oid : Nat) (p : Phone) (s : String)
    (_hascii : ∀ c ∈ s.data, c.toNat < 128)
    (h : specPhoneAccepted s = false) :
    mkPhone oid s = .error (.valueError "Invalid phone number format") ∧
    phoneSetValue p s = .error (.valueError "Invalid phone number format") := by
  have hmatch : pyMatchPhone s.data = false := by
    by_contra hne
    rw [Bool.not_eq_false] at hne
    unfold pyMatchPhone at hne
    simp only [Bool.and_eq_true, Bool.or_eq_true, decide_eq_true_eq,
      List.isEmpty_iff, beq_iff_eq] at hne
    obtain ⟨⟨h7, h15⟩, hrest⟩ := hne
    have hsplit : s.data.takeWhile Char.isDigit ++ s.data.dropWhile Char.isDigit = s.data :=
      List.takeWhile_append_dropWhile _ _
    have hblock : isDigitBlock (s.data.takeWhile Char.isDigit) = true := by
      unfold isDigitBlock
      simp [all_takeWhile, h7, h15]
    rw [Bool.eq_false_iff] at h
    apply h
    unfold specPhoneAccepted
    rcases hrest with hnil | hnl
    · rw [hnil, List.append_nil] at hsplit
      rw [hsplit] at hblock
      simp [hblock]
    · rw [hnl] at hsplit
      have hlast : s.data.getLast? = some '\n' := by
        rw [← hsplit]
        simp [List.getLast?_append]
      have hdrop : s.data.dropLast = s.data.takeWhile Char.isDigit := by
        conv_lhs => rw [← hsplit]
        exact List.dropLast_concat
      simp [hlast, hdrop, hblock]
  constructor
  · unfold mkPhone phoneSetValue
    rw [hmatch]
    rfl
  · unfold phoneSetValue
    rw [hmatch]
    rfl

/-- C2 witness at a concrete rejected string. -/
theorem phone_invalid_rejected_witness :
    specPhoneAccepted "12a4567" = false ∧
    mkPhone 0 "12a4567" = .error (.valueError "Invalid phone number format") :=
  ⟨by decide,
    (phone_invalid_rejected 0 { oid := 0, value := "" } "12a4567"
      (by decide) (by decide)).1⟩

/-- C1 counterexample: two distinct `Phone` objects carrying the same
digit string "5551234" are both appended to an initially empty record —
the membership test of `add_phone` compares object identity, not value —
and the second call reports "added", not "already present". -/
theorem add_phone_value_duplicate_appended :
    (addPhone (addPhone (Record.mk "Bob" [] none) (Phone.mk 0 "5551234")).1
        (Phone.mk 1 "5551234")).1.phones =
      [Phone.mk 0 "5551234", Phone.mk 1 "5551234"] ∧
    (addPhone (addPhone (Record.mk "Bob" [] none) (Phone.mk 0 "5551234")).1
        (Phone.mk 1 "5551234")).2 =
      "Phone 5551234 added to contact Bob" := by
  constructor
  · rfl
  · rfl

/-- C1 amended: duplicate detection in `add_phone` is by object identity.
Adding a phone object that is not yet in the record appends it, and a
second `add_phone` with the very same object leaves the record unchanged,
reports "already present", and the record holds exactly one entry with
that identity. -/
theorem add_phone_same_object_idempotent (r : Record) (p : Phone)
    (h : (r.phones.any fun q => q.oid == p.oid) = false) :
    (addPhone r p).1.phones = r.phones ++ [p] ∧
    (addPhone r p).2 = "Phone " ++ phoneStr p ++ " added to contact " ++ r.name ∧
    addPhone (addPhone r p).1 p =
      ((addPhone r p).1,
        "Phone " ++ phoneStr p ++ " already present in contact " ++ (addPhone r p).1.name) ∧
    ((addPhone r p).1.phones.filter fun q => q.oid == p.oid) = [p] := by
  have h1 : addPhone r p =
      ({ r with phones := r.phones ++ [p] },
        "Phone " ++ phoneStr p ++ " added to contact " ++ r.name) := by
    unfold addPhone
    rw [h]
    rfl
  have hmem : ((r.phones ++ [p]).any fun q => q.oid == p.oid) = true := by
    simp
  have hfil : (r.phones.filter fun q => q.oid == p.oid) = [] := by
    rw [List.filter_eq_nil_iff]
    intro q hq
    have := List.any_eq_false.mp h q hq
    simpa using this
  refine ⟨by rw [h1], by rw [h1], ?_, ?_⟩
  · rw [h1]
    unfold addPhone
    simp only [hmem]
    rfl
  · rw [h1]
    simp only [List.filter_append, hfil]
    simp

/-- C1 amendment witness at a concrete record and phone. -/
theorem add_phone_same_object_idempotent_witness :
    ((Record.mk "Bob" [] none).phones.any
      fun q => q.oid == (Phone.mk 0 "5551234").oid) = false ∧
    (addPhone (Record.mk "Bob" [] none) (Phone.mk 0 "5551234")).1.phones =
      (Record.mk "Bob" [] none).phones ++ [Phone.mk 0 "5551234"] :=
  ⟨by decide,
    (add_phone_same_object_idempotent (Record.mk "Bob" [] none)
      (Phone.mk 0 "5551234") (by decide)).1⟩

/-- Looking a key up after `del self.data[name]` finds nothing. -/
theorem getRecord_delKey (d : List (String × Record)) (name : String) :
    getRecord (delKey d name) name = none := by
  induction d with
  | nil => rfl
  | cons kv rest ih =>
    unfold delKey at *
    rw [List.filter_cons]
    by_cases hk : kv.1 = name
    · rw [if_neg (by simp [bne, hk])]
      exact ih
    · rw [if_pos (by simp [bne, hk])]
      simp only [getRecord]
      rw [if_neg (by simp [hk])]
      exact ih

/-- C6: `del_record` (the effective, later definition) removes the entry
when the name is present — afterwards `get(name)` is `None` — and when
the name is absent it leaves the book unchanged and returns the not-found
status message. -/
theorem del_record_spec (d : List (String × Record)) (name : String) :
    (hasKey d name = true → getRecord (delRecord d name).1 name = none) ∧
    (hasKey d name = false →
      (delRecord d name).1 = d ∧
      (delRecord d name).2 = "Contact " ++ name ++ " does not exist in the phonebook") := by
  constructor
  · intro h
    unfold delRecord
    rw [h]
    simpa using getRecord_delKey d name
  · intro h
    unfold delRecord
    rw [h]
    exact ⟨rfl, rfl⟩

/-- C6 witness: deleting a present and an absent name in a concrete book. -/
theorem del_record_spec_witness :
    hasKey [("Ann", Record.mk "Ann" [] none)] "Ann" = true ∧
    getRecord (delRecord [("Ann", Record.mk "Ann" [] none)] "Ann").1 "Ann" = none ∧
    hasKey [("Ann", Record.mk "Ann" [] none)] "Bob" = false ∧
    (delRecord [("Ann", Record.mk "Ann" [] none)] "Bob").1 =
      [("Ann", Record.mk "Ann" [] none)] :=
  ⟨by decide,
    (del_record_spec [("Ann", Record.mk "Ann" [] none)] "Ann").1 (by decide),
    by decide,
    ((del_record_spec [("Ann", Record.mk "Ann" [] none)] "Bob").2 (by decide)).1⟩

/-- When no phone matches by value, the `change_phone` scan finds
nothing. -/
theorem replaceFirstByValue_none (phones : List Phone) (oldValue : String)
    (np : Phone) (h : ∀ p ∈ phones, p.value ≠ oldValue) :
    replaceFirstByValue phones oldValue np = none := by
  induction phones with
  | nil => rfl
  | cons q qs ih =>
    unfold replaceFirstByValue
    rw [if_neg fun he => h q (List.mem_cons_self _ _) he.symm]
    rw [ih fun p hp => h p (List.mem_cons_of_mem q hp)]
    rfl

/-- The `change_phone` scan replaces exactly the first value match. -/
theorem replaceFirstByValue_first (phones : List Phone) (oldValue : String)
    (np : Phone) (i : Nat) (q : Phone)
    (hbefore : ∀ j, j < i → ∀ q', phones[j]? = some q' → q'.value ≠ oldValue)
    (hi : phones[i]? = some q) (hq : q.value = oldValue) :
    replaceFirstByValue phones oldValue np = some (phones.set i np) := by
  induction phones generalizing i with
  | nil => simp at hi
  | cons q0 qs ih =>
    cases i with
    | zero =>
      simp only [List.getElem?_cons_zero, Option.some_inj] at hi
      unfold replaceFirstByValue
      rw [if_pos (by rw [hi, hq])]
      rfl
    | succ j =>
      have h0 : q0.value ≠ oldValue :=
        hbefore 0 (Nat.succ_pos j) q0 (by simp)
      unfold replaceFirstByValue
      rw [if_neg fun he => h0 he.symm]
      rw [ih j (fun k hk q' hk' => hbefore (k + 1) (Nat.succ_lt_succ hk) q' (by simpa using hk'))
        (by simpa using hi)]
      rfl

/-- C7: `change_phone` with an old phone whose value is absent returns
the "not present" status message and leaves the phone list untouched (no
exception); with a value match present it overwrites the first matching
slot with the new phone and reports the change. -/
theorem change_phone_spec (r : Record) (oldPhone newPhone : Phone) :
    ((∀ p ∈ r.phones, p.value ≠ oldPhone.value) →
      changePhone r oldPhone newPhone =
        (r, phoneStr oldPhone ++ " not present in phonebook")) ∧
    (∀ i q, (∀ j, j < i → ∀ q', r.phones[j]? = some q' → q'.value ≠ oldPhone.value) →
      r.phones[i]? = some q → q.value = oldPhone.value →
      changePhone r oldPhone newPhone =
        ({ r with phones := r.phones.set i newPhone },
          "Old phone " ++ phoneStr oldPhone ++ " changed to " ++ phoneStr newPhone)) := by
  constructor
  · intro h
    unfold changePhone
    rw [replaceFirstByValue_none r.phones oldPhone.value newPhone h]
  · intro i q hbefore hi hq
    unfold changePhone
    rw [replaceFirstByValue_first r.phones oldPhone.value newPhone i q hbefore hi hq]

/-- C7 witness: a record lacking "000" is unchanged with the "not
present" message; a record holding "5551234567" gets its first slot
replaced. -/
theorem change_phone_spec_witness :
    (∀ p ∈ (Record.mk "Smith" [Phone.mk 0 "5551234567"] none).phones,
      p.value ≠ (Phone.mk 9 "000").value) ∧
    changePhone (Record.mk "Smith" [Phone.mk 0 "5551234567"] none)
        (Phone.mk 9 "000") (Phone.mk 10 "1112223334") =
      (Record.mk "Smith" [Phone.mk 0 "5551234567"] none,
        "000 not present in phonebook") ∧
    changePhone (Record.mk "Smith" [Phone.mk 0 "5551234567"] none)
        (Phone.mk 9 "5551234567") (Phone.mk 10 "1112223334") =
      (Record.mk "Smith" [Phone.mk 10 "1112223334"] none,
        "Old phone 5551234567 changed to 1112223334") :=
  ⟨by decide,
    (change_phone_spec (Record.mk "Smith" [Phone.mk 0 "5551234567"] none)
        (Phone.mk 9 "000") (Phone.mk 10 "1112223334")).1 (by decide),
    (change_phone_spec (Record.mk "Smith" [Phone.mk 0 "5551234567"] none)
        (Phone.mk 9 "5551234567") (Phone.mk 10 "1112223334")).2 0
      (Phone.mk 0 "5551234567") (by omega) (by decide) (by decide)⟩

/-- C5 counterexample: on a book holding a record rendering as
"Smith: [5551234567]" (which does contain "Smith") and a record
"Jones: [0987654321]", searching the substring "smi" matches nothing —
`search in str(record)` is case-sensitive and the lowercase "smi" does
not occur in "Smith: [...]" — so `find_command` returns the no-matches
message instead of the Smith record. -/
theorem find_smi_no_match :
    strContainsSub (recordStr (Record.mk "Smith" [Phone.mk 0 "5551234567"] none)).data
      "Smith".data = true ∧
    findCommand [("Smith", Record.mk "Smith" [Phone.mk 0 "5551234567"] none),
        ("Jones", Record.mk "Jones" [Phone.mk 1 "0987654321"] none)] "smi" =
      "No matches found for smi" := by
  constructor
  · rfl
  · rfl

/-- The loop of `find_command` keeps exactly the renderings of the
records whose rendering contains the search string, in book order. -/
theorem findLoop_eq_filter (recs : List Record) (search : String) :
    findLoop recs search =
      (recs.filter fun r => strContainsSub (recordStr r).data search.data).map recordStr := by
  induction recs with
  | nil => rfl
  | cons r rest ih =>
    unfold findLoop
    rw [List.filter_cons]
    cases h : strContainsSub (recordStr r).data search.data with
    | true =>
      rw [if_pos rfl]
      simp [ih]
    | false =>
      rw [if_neg (by simp)]
      exact ih

/-- C5 amended: a record matches a search exactly when the substring
occurs (case-sensitively) anywhere in its rendered string form, and the
case-correct search "Smi" over the Smith/Jones book returns exactly the
Smith rendering. -/
theorem find_matches_spec :
    (∀ (d : List (String × Record)) (search : String),
      findLoop (bookValues d) search =
        ((bookValues d).filter
          fun r => strContainsSub (recordStr r).data search.data).map recordStr) ∧
    findCommand [("Smith", Record.mk "Smith" [Phone.mk 0 "5551234567"] none),
        ("Jones", Record.mk "Jones" [Phone.mk 1 "0987654321"] none)] "Smi" =
      "Smith: [5551234567]" := by
  constructor
  · intro d search
    exact findLoop_eq_filter (bookValues d) search
  · rfl

/-- One pagination loop step: the pages starting at `offset`, concatenated,
are the records from `offset` on (fuel covering the remaining
iterations). -/
theorem iteratorAux_join (recs : List Record) (pageSize : Nat) :
    ∀ (fuel offset : Nat), recs.length - offset ≤ fuel * pageSize →
      (iteratorAux recs pageSize offset fuel).flatten = recs.drop offset := by
  intro fuel
  induction fuel with
  | zero =>
    intro offset h
    simp only [Nat.zero_mul, Nat.le_zero] at h
    unfold iteratorAux
    rw [List.drop_eq_nil_of_le (by omega)]
    rfl
  | succ fuel ih =>
    intro offset h
    unfold iteratorAux
    by_cases hlt : offset < recs.length
    · rw [if_pos hlt, List.flatten_cons]
      have h2 : recs.length - (offset + pageSize) ≤ fuel * pageSize := by
        rw [Nat.succ_mul] at h
        generalize fuel * pageSize = X at h ⊢
        omega
      rw [ih (offset + pageSize) h2]
      have hdd : recs.drop (offset + pageSize) = (recs.drop offset).drop pageSize := by
        rw [List.drop_drop, Nat.add_comm]
      rw [hdd]
      exact List.take_append_drop pageSize (recs.drop offset)
    · rw [if_neg hlt]
      rw [List.drop_eq_nil_of_le (by omega)]
      rfl

/-- Ceiling-division recurrence used to count pages. -/
theorem ceil_div_step (x pageSize : Nat) (hP : 1 ≤ pageSize) (hx : 1 ≤ x) :
    (x + pageSize - 1) / pageSize = (x - pageSize + pageSize - 1) / pageSize + 1 := by
  by_cases hle : x ≤ pageSize
  · have hx0 : x - pageSize = 0 := by omega
    rw [hx0]
    have h1 : x + pageSize - 1 = (x - 1) + pageSize := by omega
    rw [h1, Nat.add_div_right _ (by omega), Nat.div_eq_of_lt (by omega),
      Nat.div_eq_of_lt (by omega)]
  · have h1 : x + pageSize - 1 = (x - pageSize + pageSize - 1) + pageSize := by omega
    rw [h1, Nat.add_div_right _ (by omega)]

/-- The pagination loop yields one page per started `pageSize` block:
`ceil(remaining / pageSize)` pages. -/
theorem iteratorAux_length (recs : List Record) (pageSize : Nat) (hP : 1 ≤ pageSize) :
    ∀ (fuel offset : Nat), recs.length - offset ≤ fuel * pageSize →
      (iteratorAux recs pageSize offset fuel).length =
        (recs.length - offset + pageSize - 1) / pageSize := by
  intro fuel
  induction fuel with
  | zero =>
    intro offset h
    simp only [Nat.zero_mul, Nat.le_zero] at h
    unfold iteratorAux
    rw [h, Nat.zero_add, Nat.div_eq_of_lt (by omega)]
    rfl
  | succ fuel ih =>
    intro offset h
    unfold iteratorAux
    by_cases hlt : offset < recs.length
    · rw [if_pos hlt]
      have h2 : recs.length - (offset + pageSize) ≤ fuel * pageSize := by
        rw [Nat.succ_mul] at h
        generalize fuel * pageSize = X at h ⊢
        omega
      rw [List.length_cons, ih (offset + pageSize) h2]
      have hsub : recs.length - (offset + pageSize) =
          (recs.length - offset) - pageSize := by omega
      rw [hsub, ceil_div_step (recs.length - offset) pageSize hP (by omega)]
    · rw [if_neg hlt]
      have h0 : recs.length - offset = 0 := by omega
      rw [h0, Nat.zero_add, Nat.div_eq_of_lt (by omega)]
      rfl

/-- Every page the pagination loop yields is non-empty and holds at most
`pageSize` records. -/
theorem iteratorAux_pages (recs : List Record) (pageSize : Nat) (hP : 1 ≤ pageSize) :
    ∀ (fuel offset : Nat), ∀ pg ∈ iteratorAux recs pageSize offset fuel,
      pg ≠ [] ∧ pg.length ≤ pageSize := by
  intro fuel
  induction fuel with
  | zero =>
    intro offset pg hpg
    simp [iteratorAux] at hpg
  | succ fuel ih =>
    intro offset pg hpg
    unfold iteratorAux at hpg
    by_cases hlt : offset < recs.length
    · rw [if_pos hlt] at hpg
      rcases List.mem_cons.mp hpg with hhead | htail
      · subst hhead
        constructor
        · have hpos : 0 < ((recs.drop offset).take pageSize).length := by
            rw [List.length_take, List.length_drop]
            omega
          exact List.ne_nil_of_length_pos hpos
        · rw [List.length_take]
          omega
      · exact ih (offset + pageSize) pg htail
    · rw [if_neg hlt] at hpg
      simp at hpg

/-- C4: for a book of N records and page size P ≥ 1 (with P = 0 the
source's generator loops forever), `iterator()` yields exactly
`ceil(N / P)` pages, every page is non-empty with at most P records, and
the pages concatenated in order are exactly the book's record sequence
(hence no duplicates and no omissions). -/
theorem iterator_pages_spec (d : List (String × Record)) (pageSize : Nat)
    (hP : 1 ≤ pageSize) :
    (iteratorPages d pageSize).length =
      ((bookValues d).length + pageSize - 1) / pageSize ∧
    (∀ pg ∈ iteratorPages d pageSize, pg ≠ [] ∧ pg.length ≤ pageSize) ∧
    (iteratorPages d pageSize).flatten = bookValues d := by
  have hfuel : (bookValues d).length - 0 ≤ (bookValues d).length * pageSize := by
    have := Nat.le_mul_of_pos_right (bookValues d).length (by omega : 0 < pageSize)
    omega
  refine ⟨?_, ?_, ?_⟩
  · rw [iteratorPages, iteratorAux_length (bookValues d) pageSize hP _ 0 hfuel]
    rw [Nat.sub_zero]
  · intro pg hpg
    exact iteratorAux_pages (bookValues d) pageSize hP _ 0 pg hpg
  · rw [iteratorPages, iteratorAux_join (bookValues d) pageSize _ 0 hfuel]
    rfl

/-- C4 witness: three records with page size two give two pages, sized
two and one, concatenating back to the book's sequence. -/
theorem iterator_pages_spec_witness :
    1 ≤ 2 ∧
    (iteratorPages [("A", Record.mk "A" [] none), ("B", Record.mk "B" [] none),
      ("C", Record.mk "C" [] none)] 2).length = 2 :=
  ⟨by omega,
    by
      rw [(iterator_pages_spec [("A", Record.mk "A" [] none), ("B", Record.mk "B" [] none),
        ("C", Record.mk "C" [] none)] 2 (by omega)).1]
      rfl⟩

/-! ## Calendar arithmetic lemmas -/

theorem isLeap_iff (y : Nat) :
    isLeap y = true ↔ (y % 4 = 0 ∧ (y % 100 ≠ 0 ∨ y % 400 = 0)) := by
  unfold isLeap
  simp [Bool.and_eq_true, Bool.or_eq_true]

theorem isLeap_succ_false (y : Nat) (h : isLeap y = true) :
    isLeap (y + 1) = false := by
  have h4 : y % 4 = 0 := ((isLeap_iff y).mp h).1
  rw [Bool.eq_false_iff]
  intro hc
  have : (y + 1) % 4 = 0 := ((isLeap_iff (y + 1)).mp hc).1
  omega

set_option maxHeartbeats 1000000 in
theorem daysBeforeYear_succ (y : Nat) (hy : 1 ≤ y) :
    daysBeforeYear (y + 1) = daysBeforeYear y + 365 + (if isLeap y then 1 else 0) := by
  obtain ⟨z, rfl⟩ : ∃ z, y = z + 1 := ⟨y - 1, by omega⟩
  unfold daysBeforeYear
  simp only [Nat.add_sub_cancel]
  by_cases h : isLeap (z + 1) = true
  · rw [if_pos h]
    obtain ⟨h4, hrest⟩ := (isLeap_iff (z + 1)).mp h
    rcases hrest with h100 | h400 <;> omega
  · rw [if_neg h]
    by_cases h4 : (z + 1) % 4 = 0
    · have h100 : (z + 1) % 100 = 0 := by
        by_contra hc
        exact h ((isLeap_iff _).mpr ⟨h4, Or.inl hc⟩)
      have h400 : (z + 1) % 400 ≠ 0 := by
        intro hc
        exact h ((isLeap_iff _).mpr ⟨h4, Or.inr hc⟩)
      clear h
      omega
    · clear h
      omega

theorem daysInMonth_bounds (y m : Nat) (h1 : 1 ≤ m) (h2 : m ≤ 12) :
    1 ≤ daysInMonth y m ∧ daysInMonth y m ≤ 31 := by
  cases hL : isLeap y <;> interval_cases m <;> simp [daysInMonth, hL]

theorem daysBeforeMonth_add_day_bounds (y m d : Nat) (h1 : 1 ≤ m) (h2 : m ≤ 12)
    (h3 : 1 ≤ d) (h4 : d ≤ daysInMonth y m) :
    1 ≤ daysBeforeMonth y m + d ∧
    daysBeforeMonth y m + d ≤ 365 + (if isLeap y then 1 else 0) := by
  cases hL : isLeap y <;> interval_cases m <;>
    simp [daysInMonth, daysBeforeMonth, daysBeforeMonthTable, hL] at h4 ⊢ <;>
    omega

theorem daysBeforeMonth_succ (y m : Nat) (h1 : 1 ≤ m) (h2 : m ≤ 11) :
    daysBeforeMonth y (m + 1) = daysBeforeMonth y m + daysInMonth y m := by
  cases hL : isLeap y <;> interval_cases m <;>
    simp [daysInMonth, daysBeforeMonth, daysBeforeMonthTable, hL]

theorem daysBeforeMonth_mono (y : Nat) (m1 m2 : Nat) (h1 : 1 ≤ m1)
    (hlt : m1 < m2) (h2 : m2 ≤ 12) :
    daysBeforeMonth y m1 + daysInMonth y m1 ≤ daysBeforeMonth y m2 := by
  have key : ∀ n, m1 < n → n ≤ 12 →
      daysBeforeMonth y m1 + daysInMonth y m1 ≤ daysBeforeMonth y n := by
    intro n
    induction n with
    | zero => omega
    | succ n ih =>
      intro hlt' h2'
      by_cases hn : m1 = n
      · subst hn
        rw [daysBeforeMonth_succ y m1 h1 (by omega)]
      · have hy := ih (by omega) (by omega)
        have hstep : daysBeforeMonth y n ≤ daysBeforeMonth y (n + 1) := by
          rw [daysBeforeMonth_succ y n (by omega) (by omega)]
          omega
        omega
  exact key m2 hlt h2

/-- Strict day-of-year comparison from strict lexicographic (month, day)
comparison, within one year. -/
theorem dayOfYear_lt_of_lex (y m1 d1 m2 d2 : Nat)
    (hm1 : 1 ≤ m1) (_hm12 : m1 ≤ 12) (_hd1 : 1 ≤ d1) (hd1m : d1 ≤ daysInMonth y m1)
    (hm2 : 1 ≤ m2) (hm22 : m2 ≤ 12) (hd2 : 1 ≤ d2)
    (hlex : m1 < m2 ∨ (m1 = m2 ∧ d1 < d2)) :
    daysBeforeMonth y m1 + d1 < daysBeforeMonth y m2 + d2 := by
  rcases hlex with hlt | ⟨heq, hdlt⟩
  · have := daysBeforeMonth_mono y m1 m2 hm1 hlt hm22
    omega
  · subst heq
    omega

/-- Non-strict converse: lexicographic at-most gives day-of-year
at-most, within one year. -/
theorem dayOfYear_le_of_lex_le (y m1 d1 m2 d2 : Nat)
    (hm1 : 1 ≤ m1) (_hm12 : m1 ≤ 12) (_hd1 : 1 ≤ d1) (hd1m : d1 ≤ daysInMonth y m1)
    (hm2 : 1 ≤ m2) (hm22 : m2 ≤ 12) (hd2 : 1 ≤ d2)
    (hlex : m1 < m2 ∨ (m1 = m2 ∧ d1 ≤ d2)) :
    daysBeforeMonth y m1 + d1 ≤ daysBeforeMonth y m2 + d2 := by
  rcases hlex with hlt | ⟨heq, hdle⟩
  · have := daysBeforeMonth_mono y m1 m2 hm1 hlt hm22
    omega
  · subst heq
    omega

/-- Whether the current year is leap or not, the days-before-month table
of the next year differs from this year's by at most one, and does not
grow when the current year is leap. -/
theorem daysBeforeMonth_next_year (y m : Nat) (_h1 : 1 ≤ m) (_h2 : m ≤ 12) :
    (isLeap y = true → daysBeforeMonth (y + 1) m ≤ daysBeforeMonth y m) ∧
    (isLeap y = false → daysBeforeMonth (y + 1) m ≤ daysBeforeMonth y m + 1) := by
  constructor
  · intro hL
    have hL1 : isLeap (y + 1) = false := isLeap_succ_false y hL
    by_cases h2m : 2 < m <;> simp [daysBeforeMonth, hL, hL1, h2m]
  · intro hL
    cases hL1 : isLeap (y + 1) <;> by_cases h2m : 2 < m <;>
      simp [daysBeforeMonth, hL, hL1, h2m]

theorem dateLt_true_iff (a b : PyDate) (h : a.year = b.year) :
    dateLt a b = true ↔
      (a.month < b.month ∨ (a.month = b.month ∧ a.day < b.day)) := by
  simp [dateLt, h, Nat.lt_irrefl]

theorem mkDate_ok_of_valid {y m d : Nat} (h : validDate y m d) :
    mkDate y m d = .ok (PyDate.mk y m d) := by
  unfold mkDate
  rw [if_pos h]

theorem mkDate_error_of_invalid {y m d : Nat} (h : ¬validDate y m d) :
    mkDate y m d = .error (.valueError "date component out of range") := by
  unfold mkDate
  rw [if_neg h]

theorem mkDate_ok_inv {y m d : Nat} {dt : PyDate} (h : mkDate y m d = .ok dt) :
    validDate y m d ∧ dt = PyDate.mk y m d := by
  unfold mkDate at h
  by_cases hv : validDate y m d
  · rw [if_pos hv] at h
    cases h
    exact ⟨hv, rfl⟩
  · rw [if_neg hv] at h
    cases h

/-! Reduction lemmas tracing the branches of `daysToBirthday`. -/

theorem daysToBirthday_error_first (b : Birthday) (cur : PyDate) (e : PyErr)
    (h : mkDate cur.year b.value.month b.value.day = .error e) :
    daysToBirthday b cur = .error e := by
  unfold daysToBirthday
  rw [h]

theorem daysToBirthday_ok_of_not_lt (b : Birthday) (cur given : PyDate)
    (h1 : mkDate cur.year b.value.month b.value.day = .ok given)
    (h2 : dateLt given cur = false) :
    daysToBirthday b cur = .ok ((toOrdinal given : Int) - (toOrdinal cur : Int)) := by
  unfold daysToBirthday
  rw [h1]
  dsimp only
  rw [h2]
  rfl

theorem daysToBirthday_error_second (b : Birthday) (cur given : PyDate) (e : PyErr)
    (h1 : mkDate cur.year b.value.month b.value.day = .ok given)
    (h2 : dateLt given cur = true)
    (h3 : mkDate (cur.year + 1) b.value.month b.value.day = .error e) :
    daysToBirthday b cur = .error e := by
  unfold daysToBirthday
  rw [h1]
  dsimp only
  rw [h2, h3]
  rfl

theorem daysToBirthday_ok_of_lt (b : Birthday) (cur given given2 : PyDate)
    (h1 : mkDate cur.year b.value.month b.value.day = .ok given)
    (h2 : dateLt given cur = true)
    (h3 : mkDate (cur.year + 1) b.value.month b.value.day = .ok given2) :
    daysToBirthday b cur = .ok ((toOrdinal given2 : Int) - (toOrdinal cur : Int)) := by
  unfold daysToBirthday
  rw [h1]
  dsimp only
  rw [h2, h3]
  rfl

/-- C3 counterexample: the leap-day birthday 29-02-2020 is storable, the
current date 01-01-2023 is a possible current date, yet
`days_to_birthday` returns no integer at all there — `date(2023, 2, 29)`
raises `ValueError` — refuting the claim's "for every stored birthday
date and every possible current date ... returns an integer n". -/
theorem days_to_birthday_feb29_error :
    mkBirthday "29-02-2020" = .ok (Birthday.mk (PyDate.mk 2020 2 29)) ∧
    validDate 2023 1 1 ∧
    daysToBirthday (Birthday.mk (PyDate.mk 2020 2 29)) (PyDate.mk 2023 1 1) =
      .error (.valueError "date component out of range") := by
  refine ⟨by rfl, by decide, by rfl⟩

/-- C3 amended: whenever `days_to_birthday` does return a value n (it
raises `ValueError` instead for a Feb-29 birthday with a non-leap target
year, and when rolling over past year 9999), n satisfies 0 ≤ n < 366;
and when the stored birthday's month and day equal the current date's,
it always returns exactly 0. -/
theorem days_to_birthday_bounds (b : Birthday) (cur : PyDate)
    (hcur : validDate cur.year cur.month cur.day) :
    (∀ n : Int, daysToBirthday b cur = .ok n → 0 ≤ n ∧ n < 366) ∧
    (b.value.month = cur.month → b.value.day = cur.day →
      daysToBirthday b cur = .ok 0) := by
  obtain ⟨hy1, hy2, hmc1, hmc2, hdc1, hdc2⟩ := hcur
  constructor
  · intro n hn
    cases hg : mkDate cur.year b.value.month b.value.day with
    | error e =>
      rw [daysToBirthday_error_first b cur e hg] at hn
      cases hn
    | ok given =>
      obtain ⟨⟨_, _, hbm1, hbm2, hbd1, hbd2⟩, rfl⟩ := mkDate_ok_inv hg
      have hb1 := daysBeforeMonth_add_day_bounds cur.year b.value.month b.value.day
        hbm1 hbm2 hbd1 hbd2
      have hb2 := daysBeforeMonth_add_day_bounds cur.year cur.month cur.day
        hmc1 hmc2 hdc1 hdc2
      cases hlt : dateLt (PyDate.mk cur.year b.value.month b.value.day) cur with
      | false =>
        rw [daysToBirthday_ok_of_not_lt b cur _ hg hlt] at hn
        cases hn
        have hnlex : ¬(b.value.month < cur.month ∨
            (b.value.month = cur.month ∧ b.value.day < cur.day)) := by
          rw [← dateLt_true_iff (PyDate.mk cur.year b.value.month b.value.day) cur rfl]
          simp [hlt]
        have hle := dayOfYear_le_of_lex_le cur.year cur.month cur.day
          b.value.month b.value.day hmc1 hmc2 hdc1 hdc2 hbm1 hbm2 hbd1 (by omega)
        simp only [toOrdinal]
        cases hL : isLeap cur.year <;> simp [hL] at hb1 hb2 <;> omega
      | true =>
        cases hg2 : mkDate (cur.year + 1) b.value.month b.value.day with
        | error e2 =>
          rw [daysToBirthday_error_second b cur _ e2 hg hlt hg2] at hn
          cases hn
        | ok given2 =>
          obtain ⟨⟨_, _, _, _, _, hbd2n⟩, rfl⟩ := mkDate_ok_inv hg2
          rw [daysToBirthday_ok_of_lt b cur _ _ hg hlt hg2] at hn
          cases hn
          have hb3 := daysBeforeMonth_add_day_bounds (cur.year + 1) b.value.month
            b.value.day hbm1 hbm2 hbd1 hbd2n
          have hlex : b.value.month < cur.month ∨
              (b.value.month = cur.month ∧ b.value.day < cur.day) :=
            (dateLt_true_iff (PyDate.mk cur.year b.value.month b.value.day) cur rfl).mp hlt
          have hstrict := dayOfYear_lt_of_lex cur.year b.value.month b.value.day
            cur.month cur.day hbm1 hbm2 hbd1 hbd2 hmc1 hmc2 hdc1 hlex
          have hys := daysBeforeYear_succ cur.year hy1
          have hnext := daysBeforeMonth_next_year cur.year b.value.month hbm1 hbm2
          simp only [toOrdinal]
          rw [hys]
          cases hL : isLeap cur.year <;>
            simp [hL] at hb1 hb2 hb3 hys hnext ⊢ <;> omega
  · intro hm hd
    have hok : mkDate cur.year b.value.month b.value.day = .ok cur := by
      rw [hm, hd]
      exact mkDate_ok_of_valid ⟨hy1, hy2, hmc1, hmc2, hdc1, hdc2⟩
    have hlt : dateLt cur cur = false := by
      simp [dateLt, Nat.lt_irrefl]
    rw [daysToBirthday_ok_of_not_lt b cur cur hok hlt]
    simp

/-- C3 amendment witness: a concrete valid current date, evaluated both
on a non-matching birthday (value within bounds) and on a same-month-day
birthday (result 0). -/
theorem days_to_birthday_bounds_witness :
    validDate 2023 10 12 ∧
    daysToBirthday (Birthday.mk (PyDate.mk 1978 11 26)) (PyDate.mk 2023 10 12) =
      .ok 45 ∧
    ((45 : Int) ≤ 365) ∧
    daysToBirthday (Birthday.mk (PyDate.mk 1990 10 12)) (PyDate.mk 2023 10 12) =
      .ok 0 :=
  ⟨by decide, by rfl, by decide,
    (days_to_birthday_bounds (Birthday.mk (PyDate.mk 1990 10 12))
      (PyDate.mk 2023 10 12) (by decide)).2 rfl rfl⟩

/-- C10: for a stored Feb-29 birthday, `days_to_birthday` raises the
builtin `ValueError` (not the domain `BirthdayError`) — surfaced here as
an `Except.error`, not a returned value — whenever the year the next
occurrence is computed in is not a leap year: always when the current
year is not leap (the `date` call for this year fails), and always when
the current year is leap but Feb 29 has already passed (the roll-over
year directly after a leap year is never leap). -/
theorem feb29_days_to_birthday_valueerror (b : Birthday) (cur : PyDate)
    (hm : b.value.month = 2) (hd : b.value.day = 29)
    (hcur : validDate cur.year cur.month cur.day) :
    (isLeap cur.year = false →
      daysToBirthday b cur = .error (.valueError "date component out of range")) ∧
    (isLeap cur.year = true → dateLt (PyDate.mk cur.year 2 29) cur = true →
      isLeap (cur.year + 1) = false ∧
      daysToBirthday b cur = .error (.valueError "date component out of range")) := by
  obtain ⟨hy1, hy2, _, _, _, _⟩ := hcur
  constructor
  · intro hL
    have hinv : ¬validDate cur.year 2 29 := by
      intro hv
      have h29 := hv.2.2.2.2.2
      simp [daysInMonth, hL] at h29
    refine daysToBirthday_error_first b cur _ ?_
    rw [hm, hd]
    exact mkDate_error_of_invalid hinv
  · intro hL hlt
    have hL1 : isLeap (cur.year + 1) = false := isLeap_succ_false cur.year hL
    refine ⟨hL1, ?_⟩
    have hv : validDate cur.year 2 29 :=
      ⟨hy1, hy2, by omega, by omega, by omega, by simp [daysInMonth, hL]⟩
    have hinv2 : ¬validDate (cur.year + 1) 2 29 := by
      intro hv2
      have h29 := hv2.2.2.2.2.2
      simp [daysInMonth, hL1] at h29
    refine daysToBirthday_error_second b cur (PyDate.mk cur.year 2 29) _ ?_ hlt ?_
    · rw [hm, hd]
      exact mkDate_ok_of_valid hv
    · rw [hm, hd]
      exact mkDate_error_of_invalid hinv2

/-- C10 witness: both failure shapes at concrete dates — a non-leap
current year (2023), and a leap current year (2020) after Feb 29. -/
theorem feb29_days_to_birthday_valueerror_witness :
    validDate 2023 1 1 ∧
    daysToBirthday (Birthday.mk (PyDate.mk 2020 2 29)) (PyDate.mk 2023 1 1) =
      .error (.valueError "date component out of range") ∧
    dateLt (PyDate.mk 2020 2 29) (PyDate.mk 2020 3 1) = true ∧
    daysToBirthday (Birthday.mk (PyDate.mk 2020 2 29)) (PyDate.mk 2020 3 1) =
      .error (.valueError "date component out of range") :=
  ⟨by decide,
    (feb29_days_to_birthday_valueerror (Birthday.mk (PyDate.mk 2020 2 29))
      (PyDate.mk 2023 1 1) rfl rfl (by decide)).1 (by decide),
    by decide,
    ((feb29_days_to_birthday_valueerror (Birthday.mk (PyDate.mk 2020 2 29))
      (PyDate.mk 2020 3 1) rfl rfl (by decide)).2 (by decide) (by decide)).2⟩

/-! ## Birthday round-trip (C9) -/

theorem char_ofNat_digit (k : Nat) (hk : k ≤ 9) :
    (Char.ofNat (48 + k)).isDigit = true ∧ (Char.ofNat (48 + k)).toNat = 48 + k ∧
    Char.ofNat (48 + k) ≠ '-' := by
  interval_cases k <;> exact ⟨by decide, by decide, by decide⟩

theorem pad2_spec (n : Nat) (hn : n ≤ 99) :
    (pad2 n).all Char.isDigit = true ∧ (pad2 n).length = 2 ∧
    digitsToNat (pad2 n) = n ∧ ∀ c ∈ pad2 n, c ≠ '-' := by
  have h1 := char_ofNat_digit (n / 10) (by omega)
  have h2 := char_ofNat_digit (n % 10) (by omega)
  refine ⟨?_, rfl, ?_, ?_⟩
  · simp [pad2, h1.1, h2.1]
  · simp only [pad2, digitsToNat, List.foldl_cons, List.foldl_nil]
    rw [h1.2.1, h2.2.1]
    omega
  · intro c hc
    simp only [pad2, List.mem_cons, List.not_mem_nil, or_false] at hc
    rcases hc with rfl | rfl
    · exact h1.2.2
    · exact h2.2.2

theorem pad4_spec (n : Nat) (hn : n ≤ 9999) :
    (pad4 n).all Char.isDigit = true ∧ (pad4 n).length = 4 ∧
    digitsToNat (pad4 n) = n ∧ ∀ c ∈ pad4 n, c ≠ '-' := by
  have h1 := char_ofNat_digit (n / 1000) (by omega)
  have h2 := char_ofNat_digit (n / 100 % 10) (by omega)
  have h3 := char_ofNat_digit (n / 10 % 10) (by omega)
  have h4 := char_ofNat_digit (n % 10) (by omega)
  refine ⟨?_, rfl, ?_, ?_⟩
  · simp [pad4, h1.1, h2.1, h3.1, h4.1]
  · simp only [pad4, digitsToNat, List.foldl_cons, List.foldl_nil]
    rw [h1.2.1, h2.2.1, h3.2.1, h4.2.1]
    omega
  · intro c hc
    simp only [pad4, List.mem_cons, List.not_mem_nil, or_false] at hc
    rcases hc with rfl | rfl | rfl | rfl
    · exact h1.2.2
    · exact h2.2.2
    · exact h3.2.2
    · exact h4.2.2

theorem splitHyphens_cons_of_ne (c : Char) (rest : List Char) (h : c ≠ '-') :
    splitHyphens (c :: rest) =
      (c :: (splitHyphens rest).headD []) :: (splitHyphens rest).tail := by
  conv_lhs => unfold splitHyphens
  rw [if_neg h]

theorem splitHyphens_no_hyphen (cs : List Char) (h : ∀ c ∈ cs, c ≠ '-') :
    splitHyphens cs = [cs] := by
  induction cs with
  | nil => rfl
  | cons c rest ih =>
    rw [splitHyphens_cons_of_ne c _ (h c (List.mem_cons_self _ _))]
    rw [ih fun x hx => h x (List.mem_cons_of_mem _ hx)]
    rfl

theorem splitHyphens_append (a b : List Char) (h : ∀ c ∈ a, c ≠ '-') :
    splitHyphens (a ++ ('-' :: b)) = a :: splitHyphens b := by
  induction a with
  | nil =>
    simp only [List.nil_append]
    conv_lhs => unfold splitHyphens
    rw [if_pos rfl]
  | cons c rest ih =>
    simp only [List.cons_append]
    rw [splitHyphens_cons_of_ne c _ (h c (List.mem_cons_self _ _))]
    rw [ih fun x hx => h x (List.mem_cons_of_mem _ hx)]
    rfl

/-- The strptime embedding accepts every canonically rendered valid date
and parses it back to the same components. -/
theorem pyStrptimeDMY_roundtrip (y m d : Nat) (hv : validDate y m d) :
    pyStrptimeDMY (pad2 d ++ ('-' :: (pad2 m ++ ('-' :: pad4 y)))) =
      some (d, m, y) := by
  obtain ⟨hy1, hy2, hm1, hm2, hd1, hd2⟩ := hv
  have hd31 : d ≤ 31 := le_trans hd2 (daysInMonth_bounds y m hm1 hm2).2
  have hp2d := pad2_spec d (by omega)
  have hp2m := pad2_spec m (by omega)
  have hp4y := pad4_spec y (by omega)
  have hsplit : splitHyphens (pad2 d ++ ('-' :: (pad2 m ++ ('-' :: pad4 y)))) =
      [pad2 d, pad2 m, pad4 y] := by
    rw [splitHyphens_append _ _ hp2d.2.2.2, splitHyphens_append _ _ hp2m.2.2.2,
      splitHyphens_no_hyphen _ hp4y.2.2.2]
  unfold pyStrptimeDMY
  rw [hsplit]
  simp only [hp2d.1, hp2d.2.1, hp2d.2.2.1, hp2m.1, hp2m.2.1, hp2m.2.2.1,
    hp4y.1, hp4y.2.1, hp4y.2.2.1]
  simp [hy1, hm1, hm2, hd1, hd31, hd2]

/-- C9: for every valid calendar date, the canonical DD-MM-YYYY string
constructs a `Birthday` holding that date, and `__str__` on the result
returns exactly the original input string. -/
theorem birthday_roundtrip (y m d : Nat) (hv : validDate y m d) :
    mkBirthday (dmyString d m y) = .ok (Birthday.mk (PyDate.mk y m d)) ∧
    birthdayStr (Birthday.mk (PyDate.mk y m d)) = dmyString d m y := by
  constructor
  · unfold mkBirthday
    have hdata : (dmyString d m y).data =
        pad2 d ++ ('-' :: (pad2 m ++ ('-' :: pad4 y))) := rfl
    rw [hdata, pyStrptimeDMY_roundtrip y m d hv]
  · rfl

/-- C9 witness: the concrete date 26-11-1978 round-trips. -/
theorem birthday_roundtrip_witness :
    validDate 1978 11 26 ∧
    mkBirthday "26-11-1978" = .ok (Birthday.mk (PyDate.mk 1978 11 26)) ∧
    birthdayStr (Birthday.mk (PyDate.mk 1978 11 26)) = "26-11-1978" := by
  have h := birthday_roundtrip 1978 11 26 (by decide)
  have hs : dmyString 26 11 1978 = "26-11-1978" := by rfl
  rw [hs] at h
  exact ⟨by decide, h.1, h.2⟩

end HW12
